import Mathlib

/-!
Shallow embedding of the record-reconciliation core of `ufc_scraper_FIXED.py`:
name/date normalization, merge keys, record merging, per-competitor
knowledge-base selection, causal win/loss tallies and activity flags.

Modeling conventions:
* Python `str` is Lean `String` (a list of `Char`); the Python string
  primitives used by the source (`strip`, `lower`/`casefold`, `startswith`,
  `re.sub(r"\s+", " ", ...)`, `replace(",", "")`) are re-implemented below
  over `List Char`.  `casefold`/`lower` act on the ASCII range, which covers
  every sentinel and format token the source compares against.
* Python `dict` rows are total functions `String → Option String`
  (`none` = key absent; a key stored with value `None` behaves identically
  to an absent key in every code path modeled here, because `merge_rows`
  skips `None` incoming values and `dict.get` defaults are used elsewhere).
* `datetime.date` is the calendar triple `CalDate`; day arithmetic
  (`(a - b).days`) goes through the standard civil-calendar day number
  (`CalDate.dayNum`), and date comparisons downstream of parsing are done on
  day numbers, which order exactly as calendar dates do.
* `datetime.strptime` is modeled for the eight directives/format strings the
  source uses (`%B %b %d %m %Y` plus literals/whitespace), following
  CPython `_strptime`: case-insensitive month names, `\s+` for format
  whitespace, 1-2 digit day/month with the regex's range limits, 4-digit
  year, full-string match, and `date()` range validation.
-/

namespace UFC

/-- Python whitespace class `\s` over ASCII: space, tab, newline, CR, VT, FF. -/
def wsChar (c : Char) : Bool :=
  c = ' ' || c = '\t' || c = '\n' || c = '\r' || c = '\x0b' || c = '\x0c'

/-- Python `str.strip()` on a char list: drop whitespace at both ends. -/
def pyStripL (l : List Char) : List Char :=
  ((l.dropWhile wsChar).reverse.dropWhile wsChar).reverse

/-- Python `str.strip()`. -/
def pyStrip (s : String) : String := ⟨pyStripL s.data⟩

/-- Python `str.lower()` / `str.casefold()` (ASCII range). -/
def pyLower (s : String) : String := ⟨s.data.map Char.toLower⟩

/-- Char-list test: `lpre p s` is true iff `p` starts `s`. -/
def lpre : List Char → List Char → Bool
  | [], _ => true
  | _ :: _, [] => false
  | p :: ps, c :: cs => p = c && lpre ps cs

/-- Python `s.startswith(p)`. -/
def pyStartsWith (s p : String) : Bool := lpre p.data s.data

/-- Collapse runs of `' '` to a single `' '` (helper for `collapseWs`). -/
def squeezeSp : List Char → List Char
  | [] => []
  | [c] => [c]
  | a :: b :: rest =>
    if a = ' ' && b = ' ' then squeezeSp (b :: rest) else a :: squeezeSp (b :: rest)

/-- Python `re.sub(r"\s+", " ", s)`: every maximal whitespace run becomes one space. -/
def collapseWs (s : String) : String :=
  ⟨squeezeSp (s.data.map (fun c => if wsChar c then ' ' else c))⟩

/-- `norm_name` from the source: collapse whitespace runs, trim, casefold;
empty/falsy input gives `""`. -/
def norm_name (s : String) : String :=
  if s = "" then "" else pyLower (pyStrip (collapseWs s))

/-! ### Calendar dates -/

/-- A Python `datetime.date`: a calendar (year, month, day) triple. -/
structure CalDate where
  year : Nat
  month : Nat
  day : Nat
deriving DecidableEq, Repr

/-- Gregorian leap year (as `calendar.isleap`). -/
def isLeap (y : Nat) : Bool := (y % 4 = 0 && y % 100 ≠ 0) || y % 400 = 0

/-- Number of days in a month. -/
def monthLen (y m : Nat) : Nat :=
  if m = 2 then (if isLeap y then 29 else 28)
  else if m = 4 || m = 6 || m = 9 || m = 11 then 30
  else 31

/-- Validity check performed by `datetime.date(y, m, d)`. -/
def validYMD (y m d : Nat) : Bool :=
  1 ≤ y && y ≤ 9999 && 1 ≤ m && m ≤ 12 && 1 ≤ d && d ≤ monthLen y m

/-- Civil-calendar day number (days since 0000-03-01, the standard
`days_from_civil` algorithm restricted to years ≥ 1).  Differences of day
numbers equal Python `(a - b).days`, and larger dates have larger numbers. -/
def CalDate.dayNum (dt : CalDate) : Int :=
  let y := if dt.month ≤ 2 then dt.year - 1 else dt.year
  let era := y / 400
  let yoe := y % 400
  let mp := if 2 < dt.month then dt.month - 3 else dt.month + 9
  let doy := (153 * mp + 2) / 5 + dt.day - 1
  let doe := yoe * 365 + yoe / 4 - yoe / 100 + doy
  ((era * 146097 + doe : Nat) : Int)

/-! ### `strptime` model for the formats in `DATE_FORMATS` -/

/-- Month names, lowercase, with month numbers (`%B`). -/
def monthFullNames : List (Nat × String) :=
  [(1, "january"), (2, "february"), (3, "march"), (4, "april"), (5, "may"),
   (6, "june"), (7, "july"), (8, "august"), (9, "september"), (10, "october"),
   (11, "november"), (12, "december")]

/-- Abbreviated month names, lowercase (`%b`). -/
def monthAbbrNames : List (Nat × String) :=
  [(1, "jan"), (2, "feb"), (3, "mar"), (4, "apr"), (5, "may"), (6, "jun"),
   (7, "jul"), (8, "aug"), (9, "sep"), (10, "oct"), (11, "nov"), (12, "dec")]

/-- Case-insensitively strip the (lowercase) pattern from the input front. -/
def stripPat : List Char → List Char → Option (List Char)
  | [], rest => some rest
  | _ :: _, [] => none
  | p :: ps, c :: cs => if c.toLower = p then stripPat ps cs else none

/-- Match one month name from a table, returning its number and the rest. -/
def matchName (names : List (Nat × String)) (input : List Char) :
    Option (Nat × List Char) :=
  match names with
  | [] => none
  | (m, nm) :: rest =>
    match stripPat nm.data input with
    | some r => some (m, r)
    | none => matchName rest input

def digitChar (c : Char) : Bool := '0' ≤ c && c ≤ '9'

def dval (c : Char) : Nat := c.toNat - '0'.toNat

/-- Exactly two leading digits. -/
def num2 : List Char → Option (Nat × List Char)
  | a :: b :: rest =>
    if digitChar a && digitChar b then some (10 * dval a + dval b, rest) else none
  | _ => none

/-- Exactly one leading digit. -/
def num1 : List Char → Option (Nat × List Char)
  | a :: rest => if digitChar a then some (dval a, rest) else none
  | _ => none

/-- Exactly four leading digits (`%Y`). -/
def num4 : List Char → Option (Nat × List Char)
  | a :: b :: c :: d :: rest =>
    if digitChar a && digitChar b && digitChar c && digitChar d then
      some (1000 * dval a + 100 * dval b + 10 * dval c + dval d, rest)
    else none
  | _ => none

/-- Tokens of a `strptime` format string (only directives used by the source). -/
inductive FTok
  | lit (c : Char)
  | ws
  | monthFull
  | monthAbbr
  | dayNum
  | monthNum
  | yearNum
deriving DecidableEq, Repr

/-- Compile a format string into tokens. -/
def compileFmt : List Char → List FTok
  | '%' :: 'B' :: r => .monthFull :: compileFmt r
  | '%' :: 'b' :: r => .monthAbbr :: compileFmt r
  | '%' :: 'd' :: r => .dayNum :: compileFmt r
  | '%' :: 'm' :: r => .monthNum :: compileFmt r
  | '%' :: 'Y' :: r => .yearNum :: compileFmt r
  | c :: r => (if wsChar c then FTok.ws else FTok.lit c) :: compileFmt r
  | [] => []

/-- Run the token list against the input, `_strptime`-style: the whole input
must be consumed; `%d`/`%m` try the 2-digit regex alternatives before the
1-digit one (with the continuation, i.e. with regex backtracking); `\s+`
consumes a maximal nonempty whitespace run. -/
def matchToks : List FTok → List Char → Option Nat → Option Nat → Option Nat →
    Option (Nat × Nat × Nat)
  | [], [], y, m, d => some (y.getD 1900, m.getD 1, d.getD 1)
  | [], _ :: _, _, _, _ => none
  | t :: ts, input, y, m, d =>
    match t with
    | .lit c =>
      match input with
      | c' :: rest => if c' = c then matchToks ts rest y m d else none
      | [] => none
    | .ws =>
      match input with
      | c :: rest =>
        if wsChar c then matchToks ts (rest.dropWhile wsChar) y m d else none
      | [] => none
    | .monthFull =>
      match matchName monthFullNames input with
      | some (mv, rest) => matchToks ts rest y (some mv) d
      | none => none
    | .monthAbbr =>
      match matchName monthAbbrNames input with
      | some (mv, rest) => matchToks ts rest y (some mv) d
      | none => none
    | .dayNum =>
      (match num2 input with
       | some (v, rest) =>
         if 1 ≤ v && v ≤ 31 then matchToks ts rest y m (some v) else none
       | none => none).orElse
      (fun _ =>
        match num1 input with
        | some (v, rest) =>
          if 1 ≤ v then matchToks ts rest y m (some v) else none
        | none => none)
    | .monthNum =>
      (match num2 input with
       | some (v, rest) =>
         if 1 ≤ v && v ≤ 12 then matchToks ts rest y (some v) d else none
       | none => none).orElse
      (fun _ =>
        match num1 input with
        | some (v, rest) =>
          if 1 ≤ v then matchToks ts rest y (some v) d else none
        | none => none)
    | .yearNum =>
      match num4 input with
      | some (v, rest) => matchToks ts rest (some v) m d
      | none => none

/-- `datetime.strptime(s, fmt).date()` for one format: token match plus the
`date()` constructor range check; any failure is the caught `ValueError`. -/
def tryFormat (fmt : String) (s : List Char) : Option CalDate :=
  match matchToks (compileFmt fmt.data) s none none none with
  | some (y, m, d) => if validYMD y m d then some ⟨y, m, d⟩ else none
  | none => none

/-- `DATE_FORMATS` from the source, in order. -/
def DATE_FORMATS : List String :=
  ["%B %d, %Y", "%b %d, %Y", "%Y-%m-%d", "%m/%d/%Y",
   "%d %B %Y", "%d %b %Y", "%b-%d-%Y", "%B-%d-%Y"]

/-- First format in the list that parses the input. -/
def firstFmt : List String → List Char → Option CalDate
  | [], _ => none
  | f :: fs, s =>
    match tryFormat f s with
    | some d => some d
    | none => firstFmt fs s

/-- Python `s.replace(",", "")`. -/
def stripCommas (s : String) : String := ⟨s.data.filter (fun c => c ≠ ',')⟩

/-- `parse_date_to_obj` from the source: falsy input is `None`; otherwise trim
and collapse whitespace, try every format in order, then retry with commas
stripped from both the input and the formats. -/
def parse_date_to_obj (s : String) : Option CalDate :=
  if s = "" then none
  else
    let s1 := collapseWs (pyStrip s)
    match firstFmt DATE_FORMATS s1.data with
    | some d => some d
    | none => firstFmt (DATE_FORMATS.map stripCommas) (stripCommas s1).data

/-- Zero-padded decimal rendering (helper for `to_iso`). -/
def padNum (w n : Nat) : List Char :=
  let ds := Nat.toDigits 10 n
  List.replicate (w - ds.length) '0' ++ ds

/-- `to_iso` from the source: `d.isoformat()` for a date, `""` for `None`. -/
def to_iso : Option CalDate → String
  | some d => ⟨padNum 4 d.year ++ '-' :: (padNum 2 d.month ++ '-' :: padNum 2 d.day)⟩
  | none => ""

/-- Python `s <= t` on strings: lexicographic comparison by code point. -/
def strLeB : List Char → List Char → Bool
  | [], _ => true
  | _ :: _, [] => false
  | a :: as, b :: bs => if a = b then strLeB as bs else decide (a < b)

/-- `legacy_key` from the source: order-insensitive key `iso|name|name` with
the two normalized names in lexicographically sorted order (the source's
local variables `iso`, `a`, `b` are inlined). -/
def legacy_key (date_str f1 f2 : String) : String :=
  if strLeB (norm_name f1).data (norm_name f2).data then
    to_iso (parse_date_to_obj date_str) ++ "|" ++ norm_name f1 ++ "|" ++ norm_name f2
  else
    to_iso (parse_date_to_obj date_str) ++ "|" ++ norm_name f2 ++ "|" ++ norm_name f1

example : parse_date_to_obj "August 23, 2025" = some ⟨2025, 8, 23⟩ := by decide
example : parse_date_to_obj "2025-08-23" = some ⟨2025, 8, 23⟩ := by decide
example : parse_date_to_obj "Aug 23, 2025" = some ⟨2025, 8, 23⟩ := by decide
example : parse_date_to_obj "08/23/2025" = some ⟨2025, 8, 23⟩ := by decide
example : parse_date_to_obj "23 August 2025" = some ⟨2025, 8, 23⟩ := by decide
example : parse_date_to_obj "nonsense" = none := by decide
example : parse_date_to_obj "February 30, 2025" = none := by decide
example : parse_date_to_obj "August 23 2025" = some ⟨2025, 8, 23⟩ := by decide
example : to_iso (parse_date_to_obj "August 23, 2025") = "2025-08-23" := by decide
example : legacy_key "2025-08-23" "Jon  Jones" "Stipe Miocic" =
    "2025-08-23|jon jones|stipe miocic" := by decide
example : (⟨2026, 10, 12⟩ : CalDate).dayNum - (⟨2023, 10, 12⟩ : CalDate).dayNum
    = 1096 := by decide

/-! ### Records and merge -/

/-- A CSV/scraped row: a Python dict from (normalized) field names to string
values. `none` models an absent key; a key stored with value `None` takes the
same code paths as an absent key in everything modeled here. -/
def Rec : Type := String → Option String

/-- `merge_rows` from the source, pointwise per field (each key of the
incoming dict is processed exactly once, and the existing value consulted is
the one for that same key, so the loop is a pointwise map): skip `None`
incoming values; trim the incoming value; a trimmed-empty or case-insensitive
`"unknown"` incoming value does not overwrite an existing value whose own trim
is non-empty; otherwise the trimmed incoming value is written. -/
def merge_rows (old new : Rec) : Rec := fun k =>
  match new k with
  | none => old k
  | some v =>
    if pyStrip v = "" || pyLower (pyStrip v) = "unknown" then
      match old k with
      | some w => if pyStrip w = "" then some (pyStrip v) else some w
      | none => some (pyStrip v)
    else some (pyStrip v)

/-- The record store `key_to_row` as a map from merge key to row. -/
def Store : Type := String → Option Rec

/-- The main-loop upsert: `key_to_row[k] = merge_rows(key_to_row[k], row)`
when the key is present, else `key_to_row[k] = row`. -/
def upsert (store : Store) (k : String) (row : Rec) : Store :=
  fun k' =>
    if k' = k then
      some (match store k with
            | some old => merge_rows old row
            | none => row)
    else store k'

/-! ### Blank detection (`is_blank`) -/

/-- `BLANK_TOKENS` from the source (the last token is the source's literal
mojibake spelling of an em-dash). -/
def BLANK_TOKENS : List String :=
  ["", "unknown", "n/a", "na", "null", "none", "-", "‚Äî"]

/-- `is_blank` from the source: `None` is blank, else strip+lower and test
membership in `BLANK_TOKENS`. -/
def is_blank (v : Option String) : Bool :=
  match v with
  | none => true
  | some s => BLANK_TOKENS.contains (pyLower (pyStrip s))

/-! ### Knowledge-base selection -/

/-- `counter.most_common()[0][1]`: the top frequency (0 on an empty counter).
A counter is modeled as its item list `(value, count)` in insertion order,
with distinct keys when it arises from an actual `Counter`. -/
def mcTop (counter : List (String × Nat)) : Nat :=
  counter.foldr (fun p acc => max p.2 acc) 0

/-- The values tied for the top frequency (`candidates` in the source).
Their list order differs from `most_common()` order, but the source only ever
uses the singleton case and membership, which agree. -/
def tiedVals (counter : List (String × Nat)) : List String :=
  (counter.filter (fun p => p.2 = mcTop counter)).map Prod.fst

/-- The shared fallback loop: latest non-blank value in the timeline.
Timelines carry dates as day numbers (`CalDate.dayNum`), which compare
exactly as the `datetime.date` objects in the source do. -/
def recentNonBlank (timeline : List (Int × String)) : Option String :=
  (timeline.reverse.find? (fun p => !(is_blank (some p.2)))).map Prod.snd

/-- `choose_mode_with_recent_fallback` from the source. -/
def choose_mode_with_recent_fallback (counter : List (String × Nat))
    (timeline : List (Int × String)) : Option String :=
  match counter with
  | [] => recentNonBlank timeline
  | _ :: _ =>
    match tiedVals counter with
    | [c] => some c
    | cands =>
      match (timeline.reverse.find? (fun p => decide (p.2 ∈ cands))).map Prod.snd with
      | some v => some v
      | none => recentNonBlank timeline

/-- `gym_counts.most_common(1)[0][0] if gym_counts else None` from
`backfill_born_gym`: first value (in insertion order) with the top count. -/
def mostCommon1 (counter : List (String × Nat)) : Option String :=
  match counter with
  | [] => none
  | _ :: _ => (counter.find? (fun p => p.2 = mcTop counter)).map Prod.fst

/-- Python truthiness of `prev_val` (an `Optional[str]`). -/
def truthyS : Option String → Bool
  | none => false
  | some s => !(s = "")

/-- The first loop of `find_gym_for_date`: remember the last non-blank value
with date ≤ target, breaking at the first date > target. -/
def scanPrev (target : Int) (acc : Option String) :
    List (Int × String) → Option String
  | [] => acc
  | (d, v) :: rest =>
    if target < d then
      (if d ≤ target && !(is_blank (some v)) then some v else acc)
    else
      scanPrev target (if d ≤ target && !(is_blank (some v)) then some v else acc) rest

/-- `find_gym_for_date` from the source: latest non-blank entry ≤ target,
else earliest non-blank entry ≥ target, else the supplied mode value. -/
def find_gym_for_date (timeline : List (Int × String)) (target : Int)
    (mode_value : Option String) : Option String :=
  if truthyS (scanPrev target none timeline) then scanPrev target none timeline
  else
    match timeline.find? (fun p => target ≤ p.1 && !(is_blank (some p.2))) with
    | some p => some p.2
    | none => mode_value

/-! ### Causal win/loss counters (`compute_ufc_counters`) -/

/-- Which side of the row the competitor being processed occupies. -/
inductive Side
  | f1
  | f2
deriving DecidableEq, Repr

/-- One entry of a competitor's fight timeline: parsed event date as a day
number (`date.min` sentinel for unparseable dates orders below all real
dates), the side tag, and the row's `result` field. -/
structure FightItem where
  fdate : Int
  side : Side
  result : Option String
deriving DecidableEq, Repr

/-- The post-write tally update of `compute_ufc_counters`, as the increment
`(Δwins, Δlosses)` for the competitor being processed: the `result` string
(`(r.get('result','') or '').strip().lower()`) is fighter-1-relative, so a
`win` prefix is a win for the `f1` side and a loss for the `f2` side, a
`loss`/`l` prefix the inverse, and anything else no change. -/
def resultDelta (res : Option String) (side : Side) : Nat × Nat :=
  if pyStartsWith (pyLower (pyStrip (res.getD ""))) "win" then
    match side with
    | .f1 => (1, 0)
    | .f2 => (0, 1)
  else if pyStartsWith (pyLower (pyStrip (res.getD ""))) "loss" ||
      pyStartsWith (pyLower (pyStrip (res.getD ""))) "l" then
    match side with
    | .f1 => (0, 1)
    | .f2 => (1, 0)
  else (0, 0)

def itemDelta (it : FightItem) : Nat × Nat := resultDelta it.result it.side

/-- Whether the update changes the tallies at all (the recognized win/loss
results: the branch guards of the source's update). -/
def isWinOrLoss (res : Option String) : Bool :=
  pyStartsWith (pyLower (pyStrip (res.getD ""))) "win" ||
  pyStartsWith (pyLower (pyStrip (res.getD ""))) "loss" ||
  pyStartsWith (pyLower (pyStrip (res.getD ""))) "l"

/-- Stable insertion into a date-sorted list: later-encountered items land
after equal-dated earlier ones, matching Python's stable `list.sort`. -/
def insertItem (it : FightItem) : List FightItem → List FightItem
  | [] => [it]
  | x :: xs => if it.fdate < x.fdate then it :: x :: xs else x :: insertItem it xs

/-- `items.sort(key=lambda x: x[0])`: stable ascending sort by date. -/
def sortItems (l : List FightItem) : List FightItem :=
  l.foldl (fun acc it => insertItem it acc) []

/-- Componentwise sum of tally pairs. -/
def addT (a b : Nat × Nat) : Nat × Nat := (a.1 + b.1, a.2 + b.2)

/-- The per-competitor walk of `compute_ufc_counters`, projected onto the
sequence of `(wins, losses)` pairs it writes into the records: each record
receives the running tallies BEFORE its own result is applied. -/
def writtenTallies (w l : Nat) : List FightItem → List (Nat × Nat)
  | [] => []
  | it :: rest => (w, l) :: writtenTallies (w + (itemDelta it).1) (l + (itemDelta it).2) rest

/-- Sum of the deltas of a list of fights (a competitor's results so far). -/
def sumDeltas (l : List FightItem) : Nat × Nat :=
  l.foldl (fun acc it => addT acc (itemDelta it)) (0, 0)

/-! ### Active flags (`apply_active_flags`) -/

/-- `r.get(k, '')` on a row. -/
def getStr (r : Rec) (k : String) : String := (r k).getD ""

/-- The `last_seen` dict of `apply_active_flags`: the maximum parsed event
date (as a day number) over all rows that mention the competitor on either
side; competitors with no parseably dated row (and the empty name, which the
source skips) are absent. -/
def lastSeen : List Rec → String → Option Int
  | [], _ => none
  | r :: rest, n =>
    let tail := lastSeen rest n
    match parse_date_to_obj (getStr r "event_date") with
    | none => tail
    | some d =>
      let hit := n ≠ "" &&
        (norm_name (getStr r "fighter_1") = n || norm_name (getStr r "fighter_2") = n)
      if hit then
        match tail with
        | some m => some (max d.dayNum m)
        | none => some d.dayNum
      else tail

/-- `cutoff_days = int(365.25 * years)`: `365.25 * years` is exact in binary
floating point (`365.25 = 1461/4`), and `int` truncates, so this is floor
division `1461 * years / 4`. -/
def cutoff_days (years : Nat) : Nat := 1461 * years / 4

/-- The per-side activity test of `apply_active_flags`: active iff the
competitor has a last-seen date and `(today - last).days <= cutoff_days`. -/
def activeFlag (todayD : Int) (rows : List Rec) (years : Nat) (n : String) : Bool :=
  match lastSeen rows n with
  | some last => todayD - last ≤ (cutoff_days years : Int)
  | none => false

/-- Write one field of a row. -/
def setF (r : Rec) (k v : String) : Rec :=
  fun k' => if k' = k then some v else r k'

/-- `'TRUE' if active else 'FALSE'`. -/
def boolStr (b : Bool) : String := if b then "TRUE" else "FALSE"

/-- `apply_active_flags` from the source, with `date.today()` supplied as the
day number `todayD`: set `fighter_1_active`/`fighter_2_active` on every row
from each side's competitor's recency. -/
def apply_active_flags (todayD : Int) (years : Nat) (rows : List Rec) : List Rec :=
  rows.map (fun r =>
    setF (setF r "fighter_1_active"
            (boolStr (activeFlag todayD rows years (norm_name (getStr r "fighter_1")))))
      "fighter_2_active"
      (boolStr (activeFlag todayD rows years (norm_name (getStr r "fighter_2")))))

/-! ## Helper lemmas -/

lemma pyStripL_eq_rdropWhile (l : List Char) :
    pyStripL l = List.rdropWhile wsChar (List.dropWhile wsChar l) := rfl

lemma dropWhile_fix_head {p : Char → Bool} {c : Char} {l : List Char}
    (h : List.dropWhile p (c :: l) = c :: l) : p c = false := by
  by_cases hc : p c = true
  · rw [List.dropWhile_cons, if_pos hc] at h
    have hlen := (List.dropWhile_suffix (l := l) p).length_le
    rw [h] at hlen
    simp at hlen
  · simpa using hc

lemma dropWhile_rdropWhile_dropWhile (p : Char → Bool) (l : List Char) :
    List.dropWhile p (List.rdropWhile p (List.dropWhile p l)) =
      List.rdropWhile p (List.dropWhile p l) := by
  have hpre : List.rdropWhile p (List.dropWhile p l) <+: List.dropWhile p l :=
    List.rdropWhile_prefix p (List.dropWhile p l)
  cases hm : List.rdropWhile p (List.dropWhile p l) with
  | nil => simp
  | cons c cs =>
    rw [hm] at hpre
    obtain ⟨t, ht⟩ := hpre
    have hAfix : List.dropWhile p (List.dropWhile p l) = List.dropWhile p l :=
      List.dropWhile_idempotent p l
    rw [← ht, List.cons_append] at hAfix
    have hc : p c = false := dropWhile_fix_head hAfix
    simp [List.dropWhile_cons, hc]

lemma pyStripL_idem (l : List Char) : pyStripL (pyStripL l) = pyStripL l := by
  rw [pyStripL_eq_rdropWhile, pyStripL_eq_rdropWhile,
    dropWhile_rdropWhile_dropWhile, List.rdropWhile_idempotent]

lemma pyStrip_idem (s : String) : pyStrip (pyStrip s) = pyStrip s := by
  show String.mk (pyStripL (pyStripL s.data)) = String.mk (pyStripL s.data)
  rw [pyStripL_idem]

lemma strLeB_total (x y : List Char) : strLeB x y = true ∨ strLeB y x = true := by
  induction x generalizing y with
  | nil => exact Or.inl rfl
  | cons a as ih =>
    cases y with
    | nil => exact Or.inr rfl
    | cons b bs =>
      by_cases hab : a = b
      · subst hab
        simpa [strLeB] using ih bs
      · rcases lt_trichotomy a b with h | h | h
        · left; simp [strLeB, hab, h]
        · exact absurd h hab
        · right
          have hba : b ≠ a := fun e => hab e.symm
          simp [strLeB, hba, h]

lemma strLeB_antisymm : ∀ x y : List Char,
    strLeB x y = true → strLeB y x = true → x = y
  | [], [], _, _ => rfl
  | [], _ :: _, _, h => by simp [strLeB] at h
  | _ :: _, [], h, _ => by simp [strLeB] at h
  | a :: as, b :: bs, h1, h2 => by
    by_cases hab : a = b
    · subst hab
      simp only [strLeB, if_pos rfl] at h1 h2
      rw [strLeB_antisymm as bs h1 h2]
    · have hba : b ≠ a := fun e => hab e.symm
      simp only [strLeB, if_neg hab, decide_eq_true_eq] at h1
      simp only [strLeB, if_neg hba, decide_eq_true_eq] at h2
      exact absurd (lt_trans h1 h2) (lt_irrefl a)

lemma strLeB_antisymm_str {a b : String}
    (h1 : strLeB a.data b.data = true) (h2 : strLeB b.data a.data = true) :
    a = b := by
  cases a with
  | mk la =>
    cases b with
    | mk lb => exact congrArg String.mk (strLeB_antisymm la lb h1 h2)

lemma lpre_loss_l {l : List Char}
    (h : lpre ['l', 'o', 's', 's'] l = true) : lpre ['l'] l = true := by
  cases l with
  | nil => simp [lpre] at h
  | cons c cs =>
    simp only [lpre, Bool.and_eq_true, decide_eq_true_eq, and_true] at h ⊢
    exact h.1

lemma lpre_l_not_win {l : List Char}
    (h : lpre ['l'] l = true) : lpre ['w', 'i', 'n'] l = false := by
  cases l with
  | nil => simp [lpre] at h
  | cons c cs =>
    simp only [lpre, Bool.and_eq_true, decide_eq_true_eq, and_true] at h
    subst h
    simp [lpre]

/-- A string starting with `"loss"` starts with `"l"`. -/
lemma startsWith_l_of_loss {s : String} (h : pyStartsWith s "loss" = true) :
    pyStartsWith s "l" = true := by
  have h' : lpre ['l', 'o', 's', 's'] s.data = true := h
  exact lpre_loss_l h'

/-- A string starting with `"l"` does not start with `"win"`. -/
lemma not_win_of_startsWith_l {s : String} (h : pyStartsWith s "l" = true) :
    pyStartsWith s "win" = false := by
  have h' : lpre ['l'] s.data = true := h
  exact lpre_l_not_win h'

/-! ## Claims -/

/-- **C6.** Merge-key construction is order-insensitive in the two competitor
names: for every date string `d` and names `x`, `y`,
`legacy_key d x y = legacy_key d y x`. -/
theorem C6_key_order_insensitive (d x y : String) :
    legacy_key d x y = legacy_key d y x := by
  unfold legacy_key
  by_cases h1 : strLeB (norm_name x).data (norm_name y).data = true
  · by_cases h2 : strLeB (norm_name y).data (norm_name x).data = true
    · rw [strLeB_antisymm_str h1 h2]
    · rw [if_pos h1, if_neg h2]
  · rcases strLeB_total (norm_name x).data (norm_name y).data with h | h
    · exact absurd h h1
    · rw [if_neg h1, if_pos h]

/-- **C3.** The running-tally update is side-A-relative: a result beginning
with `"win"` is a win for the A side and a loss for the B side; a result
beginning with `"loss"` (or with the bare loss indicator `"l"`) is the
inverse; any other result leaves both deltas at zero. -/
theorem C3_result_polarity (res : Option String) :
    (pyStartsWith (pyLower (pyStrip (res.getD ""))) "win" = true →
      resultDelta res .f1 = (1, 0) ∧ resultDelta res .f2 = (0, 1)) ∧
    ((pyStartsWith (pyLower (pyStrip (res.getD ""))) "loss" = true ∨
      pyStartsWith (pyLower (pyStrip (res.getD ""))) "l" = true) →
      resultDelta res .f1 = (0, 1) ∧ resultDelta res .f2 = (1, 0)) ∧
    (pyStartsWith (pyLower (pyStrip (res.getD ""))) "win" = false →
      pyStartsWith (pyLower (pyStrip (res.getD ""))) "loss" = false →
      pyStartsWith (pyLower (pyStrip (res.getD ""))) "l" = false →
      resultDelta res .f1 = (0, 0) ∧ resultDelta res .f2 = (0, 0)) := by
  refine ⟨fun hwin => ?_, fun hloss => ?_, fun hw hlo hl => ?_⟩
  · constructor <;> simp [resultDelta, hwin]
  · have hl : pyStartsWith (pyLower (pyStrip (res.getD ""))) "l" = true := by
      rcases hloss with h | h
      · exact startsWith_l_of_loss h
      · exact h
    have hw : pyStartsWith (pyLower (pyStrip (res.getD ""))) "win" = false :=
      not_win_of_startsWith_l hl
    constructor <;> simp [resultDelta, hw, hl]
  · constructor <;> simp [resultDelta, hw, hlo, hl]

/-- **C3 witness.** Concrete instances: `"Win by KO"`, `"L"`, `"Draw"`. -/
theorem C3_result_polarity_witness :
    (resultDelta (some " Win by KO ") .f1 = (1, 0) ∧
      resultDelta (some " Win by KO ") .f2 = (0, 1)) ∧
    (resultDelta (some "L") .f1 = (0, 1) ∧
      resultDelta (some "L") .f2 = (1, 0)) ∧
    (resultDelta (some "Draw") .f1 = (0, 0) ∧
      resultDelta (some "Draw") .f2 = (0, 0)) :=
  ⟨(C3_result_polarity (some " Win by KO ")).1 (by decide),
   (C3_result_polarity (some "L")).2.1 (Or.inr (by decide)),
   (C3_result_polarity (some "Draw")).2.2 (by decide) (by decide) (by decide)⟩

/-- **C10.** Merge writes even a blank/`"Unknown"` incoming value (trimmed)
whenever the existing side has no non-empty value for the field, so merged
records can carry literal `"Unknown"` values. -/
theorem C10_blank_fill (e i : Rec) (k v : String)
    (hv : i k = some v)
    (hblank : pyStrip v = "" ∨ pyLower (pyStrip v) = "unknown")
    (he : e k = none ∨ ∃ w, e k = some w ∧ pyStrip w = "") :
    merge_rows e i k = some (pyStrip v) := by
  unfold merge_rows
  rw [hv]
  have hcond : (decide (pyStrip v = "") || decide (pyLower (pyStrip v) = "unknown")) = true := by
    rcases hblank with h | h <;> simp [h]
  rcases he with h | ⟨w, hw, hws⟩
  · simp only [hcond, if_true, h]
  · simp only [hcond, if_true, hw, hws, if_pos rfl]

/-- Existing record for the C10 witness: empty. -/
def C10e : Rec := fun _ => none

/-- Incoming record for the C10 witness: one untrimmed `" Unknown "` field. -/
def C10i : Rec := fun k => if k = "gym" then some " Unknown " else none

/-- **C10 witness.** Merging `" Unknown "` into a record with no value for
the field stores the trimmed `"Unknown"`. -/
theorem C10_blank_fill_witness : merge_rows C10e C10i "gym" = some "Unknown" := by
  have h := C10_blank_fill C10e C10i "gym" " Unknown "
    (by decide) (Or.inr (by decide)) (Or.inl rfl)
  rw [h]
  decide

lemma merge_remerge (a b : Rec) (k : String) :
    merge_rows (merge_rows a b) b k = merge_rows a b k := by
  cases hbk : b k with
  | none => simp [merge_rows, hbk]
  | some v =>
    by_cases hc : (decide (pyStrip v = "") ||
        decide (pyLower (pyStrip v) = "unknown")) = true
    · simp only [merge_rows, hbk, if_pos hc]
      cases hak : a k with
      | none => simp
      | some w =>
        by_cases hw : pyStrip w = ""
        · simp [hw]
        · simp [hw]
    · simp only [merge_rows, hbk, if_neg hc]

lemma merge_self (r : Rec) (ht : ∀ k v, r k = some v → pyStrip v = v)
    (k : String) : merge_rows r r k = r k := by
  cases hrk : r k with
  | none => simp [merge_rows, hrk]
  | some v =>
    have hv : pyStrip v = v := ht k v hrk
    by_cases h1 : pyStrip v = ""
    · have hv0 : v = "" := by rw [← hv, h1]
      subst hv0
      simp only [merge_rows, hrk]
      decide
    · by_cases h2 : pyLower (pyStrip v) = "unknown"
      · simp [merge_rows, hrk, h1, h2]
      · simp [merge_rows, hrk, h1, h2, hv]

/-- A record with a value that is not whitespace-trimmed. -/
def C4bad : Rec := fun k => if k = "a" then some " x " else none

/-- **C4 counterexample.** `merge_rows` trims incoming values, so merging a
record holding the untrimmed value `" x "` with itself rewrites the field to
`"x"`: `merge(r, r) ≠ r`, refuting the first half of the claim. -/
theorem C4_counterexample : merge_rows C4bad C4bad ≠ C4bad := by
  intro h
  have h1 := congrFun h "a"
  rw [show merge_rows C4bad C4bad "a" = some "x" from by decide,
    show C4bad "a" = some " x " from by decide] at h1
  exact absurd h1 (by decide)

/-- **C4 (amended).** Re-merging the same incoming observation is always
idempotent (`merge(merge(a,b),b) = merge(a,b)`), and `merge(r,r) = r` holds
for records whose stored values are whitespace-trimmed (equal to their own
trim); it fails for untrimmed values, which merge re-trims. -/
theorem C4_merge_idempotent_amended :
    (∀ a b : Rec, merge_rows (merge_rows a b) b = merge_rows a b) ∧
    (∀ r : Rec, (∀ k v, r k = some v → pyStrip v = v) → merge_rows r r = r) :=
  ⟨fun a b => funext (merge_remerge a b), fun r ht => funext (merge_self r ht)⟩

/-- A trim-stable one-field record for the C4 witness. -/
def C4r : Rec := fun k => if k = "a" then some "x" else none

/-- **C4 witness.** The amended idempotence law at a concrete trim-stable
record. -/
theorem C4_merge_idempotent_amended_witness : merge_rows C4r C4r = C4r :=
  C4_merge_idempotent_amended.2 C4r (fun k v h => by
    unfold C4r at h
    split at h
    · cases h; rfl
    · cases h)

/-- **C5.** Merge never destroys populated data: if the existing record has a
non-blank (trim-nonempty) value for a field and the incoming value is null,
trims to empty, or is the case-insensitive `"unknown"` sentinel, the existing
value is kept; and a field holding a non-blank value still holds a non-blank
value after any merge. -/
theorem C5_merge_nondestructive :
    (∀ (a b : Rec) (k w : String), a k = some w → pyStrip w ≠ "" →
      (b k = none ∨ ∃ v, b k = some v ∧
        (pyStrip v = "" ∨ pyLower (pyStrip v) = "unknown")) →
      merge_rows a b k = a k) ∧
    (∀ (a b : Rec) (k w : String), a k = some w → pyStrip w ≠ "" →
      ∃ u, merge_rows a b k = some u ∧ pyStrip u ≠ "") := by
  constructor
  · intro a b k w ha hw hb
    rcases hb with hb | ⟨v, hb, hv⟩
    · simp [merge_rows, hb, ha]
    · have hcond : (decide (pyStrip v = "") ||
          decide (pyLower (pyStrip v) = "unknown")) = true := by
        rcases hv with h | h <;> simp [h]
      simp [merge_rows, hb, ha, hcond, hw]
  · intro a b k w ha hw
    cases hb : b k with
    | none => exact ⟨w, by simp [merge_rows, hb, ha], hw⟩
    | some v =>
      by_cases hc : (decide (pyStrip v = "") ||
          decide (pyLower (pyStrip v) = "unknown")) = true
      · refine ⟨w, ?_, hw⟩
        simp [merge_rows, hb, ha, hc, hw]
      · refine ⟨pyStrip v, ?_, ?_⟩
        · simp [merge_rows, hb, hc]
        · rw [pyStrip_idem]
          simp only [Bool.or_eq_true, decide_eq_true_eq, not_or] at hc
          exact hc.1

/-- Existing record for the C5 witness. -/
def C5a : Rec := fun k => if k = "gym" then some "Alpha Gym" else none

/-- Incoming record for the C5 witness: an `" unknown "` sentinel. -/
def C5b : Rec := fun k => if k = "gym" then some " unknown " else none

/-- **C5 witness.** A populated field survives an `"unknown"` incoming value
and stays non-blank. -/
theorem C5_merge_nondestructive_witness :
    merge_rows C5a C5b "gym" = some "Alpha Gym" ∧
    ∃ u, merge_rows C5a C5b "gym" = some u ∧ pyStrip u ≠ "" := by
  constructor
  · have h := C5_merge_nondestructive.1 C5a C5b "gym" "Alpha Gym" rfl (by decide)
      (Or.inr ⟨" unknown ", rfl, Or.inr (by decide)⟩)
    rw [h]
    rfl
  · exact C5_merge_nondestructive.2 C5a C5b "gym" "Alpha Gym" rfl (by decide)

/-- **C7.** The spellings `"August 23, 2025"` and `"2025-08-23"` parse to the
same date, give the same merge key for any pairing, and upserting both
observations leaves a single merged record in the store. -/
theorem C7_date_alias_same_key :
    parse_date_to_obj "August 23, 2025" = some ⟨2025, 8, 23⟩ ∧
    parse_date_to_obj "2025-08-23" = some ⟨2025, 8, 23⟩ ∧
    (∀ x y : String, legacy_key "August 23, 2025" x y = legacy_key "2025-08-23" x y) ∧
    (∀ (x y : String) (r₁ r₂ : Rec) (k' : String),
      upsert (upsert (fun _ => none) (legacy_key "August 23, 2025" x y) r₁)
          (legacy_key "2025-08-23" x y) r₂ k' =
        if k' = legacy_key "August 23, 2025" x y then some (merge_rows r₁ r₂)
        else none) := by
  have hp1 : parse_date_to_obj "August 23, 2025" = some ⟨2025, 8, 23⟩ := by decide
  have hp2 : parse_date_to_obj "2025-08-23" = some ⟨2025, 8, 23⟩ := by decide
  have hk : ∀ x y : String,
      legacy_key "August 23, 2025" x y = legacy_key "2025-08-23" x y := by
    intro x y
    unfold legacy_key
    rw [hp1, hp2]
  refine ⟨hp1, hp2, hk, ?_⟩
  intro x y r₁ r₂ k'
  rw [← hk x y]
  by_cases hkk : k' = legacy_key "August 23, 2025" x y
  · simp [upsert, hkk]
  · simp [upsert, hkk]

/-- A single row whose event is dated exactly 1096 days before
`2026-10-12`. -/
def C1row : Rec := fun k =>
  if k = "event_date" then some "2023-10-12"
  else if k = "fighter_1" then some "x"
  else if k = "fighter_2" then some "y"
  else none

/-- A fixed `date.today()` for the C1 analysis. -/
def C1today : Int := (⟨2026, 10, 12⟩ : CalDate).dayNum

/-- **C1 counterexample.** The source computes
`cutoff_days = int(365.25 * 3) = 1095` (truncation), not
`round(365.25 * 3) = 1096`: a competitor last seen exactly 1096 days ago is
flagged INACTIVE, so the claimed inclusive 1096-day boundary (flag set iff
the gap is at most 1096 days) fails at this input. -/
theorem C1_counterexample :
    C1today - (⟨2023, 10, 12⟩ : CalDate).dayNum = 1096 ∧
    lastSeen [C1row] "x" = some (⟨2023, 10, 12⟩ : CalDate).dayNum ∧
    activeFlag C1today [C1row] 3 "x" = false ∧
    getStr ((apply_active_flags C1today 3 [C1row]).headD (fun _ => none))
      "fighter_1_active" = "FALSE" ∧
    ¬(activeFlag C1today [C1row] 3 "x" = true ↔
        C1today - (⟨2023, 10, 12⟩ : CalDate).dayNum ≤ 1096) := by
  decide

/-- **C1 (amended).** With `window_years = 3` the cutoff is
`int(365.25 * 3) = 1095` days (float truncation, not rounding): a competitor
with a parseably dated record is flagged active exactly when
`(today - most recent event date).days ≤ 1095`; the boundary is inclusive at
1095, and a competitor last seen exactly 1096 days ago is inactive.  The
flags written into the rows are `boolStr` of this per-side test. -/
theorem C1_active_cutoff :
    cutoff_days 3 = 1095 ∧
    (∀ (todayD : Int) (rows : List Rec) (n : String) (last : Int),
      lastSeen rows n = some last →
      (activeFlag todayD rows 3 n = true ↔ todayD - last ≤ 1095)) ∧
    (∀ (todayD : Int) (years : Nat) (rows : List Rec) (r : Rec),
      r ∈ rows →
      setF (setF r "fighter_1_active"
          (boolStr (activeFlag todayD rows years (norm_name (getStr r "fighter_1")))))
        "fighter_2_active"
        (boolStr (activeFlag todayD rows years (norm_name (getStr r "fighter_2"))))
        ∈ apply_active_flags todayD years rows) := by
  refine ⟨rfl, ?_, ?_⟩
  · intro todayD rows n last h
    have hcut : ((cutoff_days 3 : Nat) : Int) = 1095 := rfl
    simp only [activeFlag, h, hcut, decide_eq_true_eq]
  · intro todayD years rows r hr
    exact List.mem_map_of_mem _ hr

/-- A single row dated exactly 1095 days before `2026-10-12`. -/
def C1wrow : Rec := fun k =>
  if k = "event_date" then some "2023-10-13"
  else if k = "fighter_1" then some "x"
  else if k = "fighter_2" then some "y"
  else none

/-- **C1 witness.** The amended boundary at concrete inputs: last seen
exactly 1095 days ago is active (and the flag is written into the row). -/
theorem C1_active_cutoff_witness :
    (activeFlag C1today [C1wrow] 3 "x" = true ↔
      C1today - (⟨2023, 10, 13⟩ : CalDate).dayNum ≤ 1095) ∧
    setF (setF C1wrow "fighter_1_active"
        (boolStr (activeFlag C1today [C1wrow] 3 (norm_name (getStr C1wrow "fighter_1")))))
      "fighter_2_active"
      (boolStr (activeFlag C1today [C1wrow] 3 (norm_name (getStr C1wrow "fighter_2"))))
      ∈ apply_active_flags C1today 3 [C1wrow] :=
  ⟨C1_active_cutoff.2.1 C1today [C1wrow] "x" ((⟨2023, 10, 13⟩ : CalDate).dayNum)
      (by decide),
   C1_active_cutoff.2.2 C1today 3 [C1wrow] C1wrow (List.mem_singleton.mpr rfl)⟩

lemma addT_assoc (p q r : Nat × Nat) : addT (addT p q) r = addT p (addT q r) := by
  simp [addT, Nat.add_assoc]

lemma addT_zero_left (p : Nat × Nat) : addT (0, 0) p = p := by simp [addT]

lemma addT_zero_right (p : Nat × Nat) : addT p (0, 0) = p := by simp [addT]

lemma foldl_addT_shift (l : List FightItem) (p q : Nat × Nat) :
    l.foldl (fun acc it => addT acc (itemDelta it)) (addT p q) =
      addT p (l.foldl (fun acc it => addT acc (itemDelta it)) q) := by
  induction l generalizing q with
  | nil => rfl
  | cons it rest ih => simp only [List.foldl_cons, addT_assoc, ih]

lemma sumDeltas_cons (it : FightItem) (l : List FightItem) :
    sumDeltas (it :: l) = addT (itemDelta it) (sumDeltas l) := by
  unfold sumDeltas
  simp only [List.foldl_cons]
  rw [show addT (0, 0) (itemDelta it) = addT (itemDelta it) (0, 0) by
      rw [addT_zero_left, addT_zero_right],
    foldl_addT_shift]

lemma sumDeltas_concat (l : List FightItem) (it : FightItem) :
    sumDeltas (l ++ [it]) = addT (sumDeltas l) (itemDelta it) := by
  unfold sumDeltas
  rw [List.foldl_append]
  rfl

lemma writtenTallies_length (items : List FightItem) :
    ∀ w l : Nat, (writtenTallies w l items).length = items.length := by
  induction items with
  | nil => intro w l; rfl
  | cons it rest ih =>
    intro w l
    simp only [writtenTallies, List.length_cons, ih]

lemma writtenTallies_get (items : List FightItem) :
    ∀ (w l i : Nat) (h : i < (writtenTallies w l items).length),
      (writtenTallies w l items).get ⟨i, h⟩ =
        addT (w, l) (sumDeltas (items.take i)) := by
  induction items with
  | nil =>
    intro w l i h
    simp [writtenTallies] at h
  | cons it rest ih =>
    intro w l i h
    cases i with
    | zero =>
      simp only [writtenTallies, List.get, List.take_zero]
      rw [show sumDeltas [] = (0, 0) from rfl, addT_zero_right]
    | succ i =>
      simp only [writtenTallies, List.get] at h ⊢
      rw [ih (w + (itemDelta it).1) (l + (itemDelta it).2) i (by simpa using h)]
      rw [List.take_succ_cons, sumDeltas_cons,
        show ((w + (itemDelta it).1, l + (itemDelta it).2) : Nat × Nat) =
          addT (w, l) (itemDelta it) from rfl,
        addT_assoc]

lemma mem_insertItem {b it : FightItem} {l : List FightItem} :
    b ∈ insertItem it l ↔ b = it ∨ b ∈ l := by
  induction l with
  | nil => simp [insertItem]
  | cons x xs ih =>
    by_cases hlt : it.fdate < x.fdate
    · simp only [insertItem, if_pos hlt, List.mem_cons]
    · simp only [insertItem, if_neg hlt, List.mem_cons, ih]
      tauto

lemma insertItem_pairwise (it : FightItem) (l : List FightItem)
    (h : List.Pairwise (fun a b => a.fdate ≤ b.fdate) l) :
    List.Pairwise (fun a b => a.fdate ≤ b.fdate) (insertItem it l) := by
  induction l with
  | nil => simp [insertItem]
  | cons x xs ih =>
    rw [List.pairwise_cons] at h
    by_cases hlt : it.fdate < x.fdate
    · simp only [insertItem, if_pos hlt]
      refine List.Pairwise.cons ?_ (List.Pairwise.cons h.1 h.2)
      intro b hb
      rcases List.mem_cons.mp hb with hb | hb
      · rw [hb]; exact le_of_lt hlt
      · exact le_trans (le_of_lt hlt) (h.1 b hb)
    · simp only [insertItem, if_neg hlt]
      refine List.Pairwise.cons ?_ (ih h.2)
      intro b hb
      rcases mem_insertItem.mp hb with hb | hb
      · rw [hb]; exact not_lt.mp hlt
      · exact h.1 b hb

lemma foldl_insert_pairwise :
    ∀ (l acc : List FightItem),
      List.Pairwise (fun a b => a.fdate ≤ b.fdate) acc →
      List.Pairwise (fun a b => a.fdate ≤ b.fdate)
        (l.foldl (fun a it => insertItem it a) acc)
  | [], _, h => h
  | it :: rest, acc, h =>
    foldl_insert_pairwise rest (insertItem it acc) (insertItem_pairwise it acc h)

lemma sortItems_pairwise (l : List FightItem) :
    List.Pairwise (fun a b => a.fdate ≤ b.fdate) (sortItems l) :=
  foldl_insert_pairwise l [] (List.Pairwise.nil)

lemma itemDelta_shape (it : FightItem) :
    (isWinOrLoss it.result = true → itemDelta it = (1, 0) ∨ itemDelta it = (0, 1)) ∧
    (isWinOrLoss it.result = false → itemDelta it = (0, 0)) := by
  unfold itemDelta resultDelta isWinOrLoss
  by_cases hwin : pyStartsWith (pyLower (pyStrip (it.result.getD ""))) "win" = true
  · cases it.side <;> simp [hwin]
  · by_cases hl : (pyStartsWith (pyLower (pyStrip (it.result.getD ""))) "loss" ||
        pyStartsWith (pyLower (pyStrip (it.result.getD ""))) "l") = true
    · cases it.side <;> simp [hwin, hl]
    · simp [hwin, hl]

/-- **C2.** The per-competitor causal-tally walk: processed in ascending date
order (the sorted list is date-sorted), the written tally sequence starts at
`(0,0)`, each entry equals the sum of the deltas of the strictly earlier
records (no look-ahead), consecutive entries differ by the record's own
delta, which is a unit step in exactly one component for a win/loss result
and zero otherwise, so both components are non-decreasing; the two-record
`"win"` then `"loss"` scenario writes `(0,0)` then `(1,0)`. -/
theorem C2_causal_tallies (items : List FightItem) :
    (sortItems items ≠ [] →
      (writtenTallies 0 0 (sortItems items)).head? = some (0, 0)) ∧
    List.Pairwise (fun a b => a.fdate ≤ b.fdate) (sortItems items) ∧
    (∀ (i : Nat) (h : i < (writtenTallies 0 0 (sortItems items)).length),
      (writtenTallies 0 0 (sortItems items)).get ⟨i, h⟩ =
        sumDeltas ((sortItems items).take i)) ∧
    (∀ (i : Nat) (h : i + 1 < (writtenTallies 0 0 (sortItems items)).length)
        (h' : i < (sortItems items).length),
      (writtenTallies 0 0 (sortItems items)).get ⟨i + 1, h⟩ =
        addT ((writtenTallies 0 0 (sortItems items)).get ⟨i, Nat.lt_of_succ_lt h⟩)
          (itemDelta ((sortItems items).get ⟨i, h'⟩)) ∧
      ((writtenTallies 0 0 (sortItems items)).get ⟨i, Nat.lt_of_succ_lt h⟩).1 ≤
        ((writtenTallies 0 0 (sortItems items)).get ⟨i + 1, h⟩).1 ∧
      ((writtenTallies 0 0 (sortItems items)).get ⟨i, Nat.lt_of_succ_lt h⟩).2 ≤
        ((writtenTallies 0 0 (sortItems items)).get ⟨i + 1, h⟩).2) ∧
    (∀ it : FightItem,
      (isWinOrLoss it.result = true →
        itemDelta it = (1, 0) ∨ itemDelta it = (0, 1)) ∧
      (isWinOrLoss it.result = false → itemDelta it = (0, 0))) ∧
    writtenTallies 0 0 (sortItems
        [⟨0, Side.f1, some "win"⟩, ⟨1, Side.f1, some "loss"⟩]) = [(0, 0), (1, 0)] := by
  refine ⟨?_, sortItems_pairwise items, ?_, ?_, itemDelta_shape, by decide⟩
  · intro hne
    cases hs : sortItems items with
    | nil => exact absurd hs hne
    | cons it rest => simp [writtenTallies]
  · intro i h
    rw [writtenTallies_get, addT_zero_left]
  · intro i h h'
    have hstep : (writtenTallies 0 0 (sortItems items)).get ⟨i + 1, h⟩ =
        addT ((writtenTallies 0 0 (sortItems items)).get ⟨i, Nat.lt_of_succ_lt h⟩)
          (itemDelta ((sortItems items).get ⟨i, h'⟩)) := by
      rw [writtenTallies_get, writtenTallies_get, addT_zero_left, addT_zero_left]
      rw [List.take_succ]
      rw [List.getElem?_eq_getElem h']
      simp only [Option.toList_some]
      rw [sumDeltas_concat]
      rfl
    refine ⟨hstep, ?_, ?_⟩
    · rw [hstep]
      exact Nat.le_add_right _ _
    · rw [hstep]
      exact Nat.le_add_right _ _

/-- Fight list for the C2 witness: `"win"` then `"loss"`, both as side A. -/
def C2items : List FightItem :=
  [⟨0, Side.f1, some "win"⟩, ⟨1, Side.f1, some "loss"⟩]

/-- **C2 witness.** The causal-tally properties at the concrete two-record
scenario: the second written tally is the delta-sum of the strictly earlier
record, and the first written tally is `(0,0)`. -/
theorem C2_causal_tallies_witness :
    (writtenTallies 0 0 (sortItems C2items)).head? = some (0, 0) ∧
    (writtenTallies 0 0 (sortItems C2items)).get ⟨1, by decide⟩ =
      sumDeltas ((sortItems C2items).take 1) ∧
    (writtenTallies 0 0 (sortItems C2items)).get ⟨1, by decide⟩ =
      addT ((writtenTallies 0 0 (sortItems C2items)).get
          ⟨0, Nat.lt_of_succ_lt (by decide)⟩)
        (itemDelta ((sortItems C2items).get ⟨0, by decide⟩)) :=
  ⟨(C2_causal_tallies C2items).1 (by decide),
   (C2_causal_tallies C2items).2.2.1 1 (by decide),
   ((C2_causal_tallies C2items).2.2.2.1 0 (by decide) (by decide)).1⟩

lemma blank_empty : is_blank (some "") = true := by decide

lemma scanPrev_of_all_blank_le (target : Int) :
    ∀ t : List (Int × String),
      (∀ p ∈ t, p.1 ≤ target → is_blank (some p.2) = true) →
      scanPrev target none t = none := by
  intro t
  induction t with
  | nil => intro _; rfl
  | cons q rest ih =>
    intro h
    obtain ⟨d, v⟩ := q
    by_cases hd : target < d
    · have hd' : ¬(d ≤ target) := not_le.mpr hd
      simp [scanPrev, hd, hd']
    · have hd' : d ≤ target := not_lt.mp hd
      have hb : is_blank (some v) = true :=
        h (d, v) (List.mem_cons_self _ _) hd'
      simp only [scanPrev, if_neg hd]
      rw [show (if (decide (d ≤ target) && !is_blank (some v)) = true
            then some v else (none : Option String)) = none by simp [hb]]
      exact ih (fun p hp hple => h p (List.mem_cons_of_mem _ hp) hple)

lemma scanPrev_stays (target : Int) (v : String) :
    ∀ t₂ : List (Int × String),
      (∀ p ∈ t₂, p.1 ≤ target → is_blank (some p.2) = true) →
      scanPrev target (some v) t₂ = some v := by
  intro t₂
  induction t₂ with
  | nil => intro _; rfl
  | cons q rest ih =>
    intro h
    obtain ⟨d', v'⟩ := q
    by_cases hd : target < d'
    · have hd' : ¬(d' ≤ target) := not_le.mpr hd
      simp [scanPrev, hd, hd']
    · have hd' : d' ≤ target := not_lt.mp hd
      have hb : is_blank (some v') = true :=
        h (d', v') (List.mem_cons_self _ _) hd'
      simp only [scanPrev, if_neg hd]
      rw [show (if (decide (d' ≤ target) && !is_blank (some v')) = true
            then some v' else some v) = some v by simp [hb]]
      exact ih (fun p hp hple => h p (List.mem_cons_of_mem _ hp) hple)

lemma scanPrev_through (target : Int) :
    ∀ (t₁ : List (Int × String)) (acc : Option String)
      (rest : List (Int × String)),
      (∀ p ∈ t₁, p.1 ≤ target) →
      ∃ acc₂, scanPrev target acc (t₁ ++ rest) = scanPrev target acc₂ rest := by
  intro t₁
  induction t₁ with
  | nil => exact fun acc rest _ => ⟨acc, rfl⟩
  | cons q t₁ ih =>
    intro acc rest h
    obtain ⟨d₀, v₀⟩ := q
    have hd₀ : d₀ ≤ target := h (d₀, v₀) (List.mem_cons_self _ _)
    have hnb : ¬(target < d₀) := not_lt.mpr hd₀
    simp only [List.cons_append, scanPrev, if_neg hnb]
    exact ih _ rest (fun p hp => h p (List.mem_cons_of_mem _ hp))

lemma scanPrev_hits (target : Int) (t₁ t₂ : List (Int × String)) (d : Int)
    (v : String)
    (hsort : List.Pairwise (fun a b => a.1 ≤ b.1) (t₁ ++ (d, v) :: t₂))
    (hd : d ≤ target) (hv : is_blank (some v) = false)
    (ht₂ : ∀ p ∈ t₂, p.1 ≤ target → is_blank (some p.2) = true) :
    scanPrev target none (t₁ ++ (d, v) :: t₂) = some v := by
  have ht₁ : ∀ p ∈ t₁, p.1 ≤ target := by
    rw [List.pairwise_append] at hsort
    intro p hp
    exact le_trans (hsort.2.2 p hp (d, v) (List.mem_cons_self _ _)) hd
  obtain ⟨acc₂, hacc⟩ := scanPrev_through target t₁ none ((d, v) :: t₂) ht₁
  rw [hacc]
  have hnb : ¬(target < d) := not_lt.mpr hd
  simp only [scanPrev, if_neg hnb]
  rw [show (if (decide (d ≤ target) && !is_blank (some v)) = true
        then some v else acc₂) = some v by simp [hd, hv]]
  exact scanPrev_stays target v t₂ ht₂

lemma blank_ne_empty {v : String} (hv : is_blank (some v) = false) : v ≠ "" := by
  intro h
  rw [h, blank_empty] at hv
  cases hv

/-- **C9.** Date-proximate selection over a date-sorted timeline: the latest
non-blank entry with date ≤ target when one exists; otherwise the earliest
non-blank entry with date ≥ target; otherwise the supplied mode value; and
the concrete `["Camp A","Camp A","Camp B"]` scenario with a target before
all entries returns `"Camp A"` through the earliest-≥-target branch (also
shown: the proximate branch beats a disagreeing mode value). -/
theorem C9_date_proximate :
    (∀ (t₁ t₂ : List (Int × String)) (d : Int) (v : String) (target : Int)
        (m : Option String),
      List.Pairwise (fun a b => a.1 ≤ b.1) (t₁ ++ (d, v) :: t₂) →
      d ≤ target → is_blank (some v) = false →
      (∀ p ∈ t₂, p.1 ≤ target → is_blank (some p.2) = true) →
      find_gym_for_date (t₁ ++ (d, v) :: t₂) target m = some v) ∧
    (∀ (t₁ t₂ : List (Int × String)) (d : Int) (v : String) (target : Int)
        (m : Option String),
      (∀ p ∈ t₁ ++ (d, v) :: t₂, p.1 ≤ target → is_blank (some p.2) = true) →
      target ≤ d → is_blank (some v) = false →
      (∀ p ∈ t₁, is_blank (some p.2) = true) →
      find_gym_for_date (t₁ ++ (d, v) :: t₂) target m = some v) ∧
    (∀ (t : List (Int × String)) (target : Int) (m : Option String),
      (∀ p ∈ t, is_blank (some p.2) = true) →
      find_gym_for_date t target m = m) ∧
    find_gym_for_date [(1, "Camp A"), (2, "Camp A"), (3, "Camp B")] 0 none =
      some "Camp A" ∧
    find_gym_for_date [(1, "Camp B"), (2, "Camp A"), (3, "Camp A")] 1
      (mostCommon1 [("Camp A", 2), ("Camp B", 1)]) = some "Camp B" := by
  refine ⟨?_, ?_, ?_, by decide, by decide⟩
  · intro t₁ t₂ d v target m hsort hd hv ht₂
    have hscan := scanPrev_hits target t₁ t₂ d v hsort hd hv ht₂
    have hvne : v ≠ "" := blank_ne_empty hv
    unfold find_gym_for_date
    rw [hscan]
    simp [truthyS, hvne]
  · intro t₁ t₂ d v target m hall hd hv ht₁
    have hscan : scanPrev target none (t₁ ++ (d, v) :: t₂) = none :=
      scanPrev_of_all_blank_le target _ hall
    unfold find_gym_for_date
    rw [hscan]
    have ht₁f : (t₁.find?
        (fun p => decide (target ≤ p.1) && !is_blank (some p.2))) = none := by
      rw [List.find?_eq_none]
      intro p hp
      simp [ht₁ p hp]
    rw [show (truthyS none) = false from rfl]
    simp only [Bool.false_eq_true, if_false, List.find?_append, ht₁f,
      Option.none_or]
    rw [List.find?_cons_of_pos _ (by simp [hd, hv])]
  · intro t target m hall
    have hscan : scanPrev target none t = none :=
      scanPrev_of_all_blank_le target t (fun p hp _ => hall p hp)
    unfold find_gym_for_date
    rw [hscan]
    have htf : (t.find?
        (fun p => decide (target ≤ p.1) && !is_blank (some p.2))) = none := by
      rw [List.find?_eq_none]
      intro p hp
      simp [hall p hp]
    rw [show (truthyS none) = false from rfl]
    simp only [Bool.false_eq_true, if_false, htf]

/-- **C9 witness.** Concrete instances of all three selection branches. -/
theorem C9_date_proximate_witness :
    find_gym_for_date [(1, "X"), (2, "Y")] 1 none = some "X" ∧
    find_gym_for_date [(0, "n/a"), (2, "X")] 1 none = some "X" ∧
    find_gym_for_date [(0, " ")] 5 (some "M") = some "M" :=
  ⟨C9_date_proximate.1 [] [(2, "Y")] 1 "X" 1 none (by decide) (by decide)
      (by decide) (by decide),
   C9_date_proximate.2.1 [(0, "n/a")] [] 2 "X" 1 none (by decide) (by decide)
      (by decide) (by decide),
   C9_date_proximate.2.2.1 [(0, " ")] 5 (some "M") (by decide)⟩

lemma le_mcTop {counter : List (String × Nat)} {p : String × Nat}
    (h : p ∈ counter) : p.2 ≤ mcTop counter := by
  induction counter with
  | nil => cases h
  | cons q qs ih =>
    rcases List.mem_cons.mp h with h | h
    · rw [h]
      exact le_max_left _ _
    · exact le_trans (ih h) (le_max_right _ _)

lemma mcTop_le {counter : List (String × Nat)} {c : Nat}
    (h : ∀ p ∈ counter, p.2 ≤ c) : mcTop counter ≤ c := by
  induction counter with
  | nil => exact Nat.zero_le c
  | cons q qs ih =>
    exact max_le (h q (List.mem_cons_self _ _))
      (ih (fun p hp => h p (List.mem_cons_of_mem _ hp)))

lemma filter_count_singleton {v : String} {c : Nat} :
    ∀ l : List (String × Nat),
      (v, c) ∈ l → (∀ p ∈ l, p.2 = c → p.1 = v) →
      (l.map Prod.fst).Nodup →
      l.filter (fun p => decide (p.2 = c)) = [(v, c)] := by
  intro l
  induction l with
  | nil => intro h; cases h
  | cons q qs ih =>
    intro hmem huniq hnd
    rw [List.map_cons, List.nodup_cons] at hnd
    by_cases hq : q = (v, c)
    · subst hq
      rw [List.filter_cons_of_pos (by simp)]
      have hqs : qs.filter (fun p => decide (p.2 = c)) = [] := by
        rw [List.filter_eq_nil_iff]
        intro p hp hpc
        simp only [decide_eq_true_eq] at hpc
        have hpv : p.1 = v := huniq p (List.mem_cons_of_mem _ hp) hpc
        have hmm : p.1 ∈ qs.map Prod.fst := List.mem_map_of_mem _ hp
        rw [hpv] at hmm
        exact hnd.1 hmm
      rw [hqs]
    · have hq2 : ¬(q.2 = c) := by
        intro hc
        have hq1 : q.1 = v := huniq q (List.mem_cons_self _ _) hc
        exact hq (Prod.ext hq1 hc)
      rw [List.filter_cons_of_neg (by simp [hq2])]
      have hmem' : (v, c) ∈ qs := by
        rcases List.mem_cons.mp hmem with h | h
        · exact absurd h.symm hq
        · exact h
      exact ih hmem' (fun p hp => huniq p (List.mem_cons_of_mem _ hp)) hnd.2

lemma tiedVals_eq_singleton {counter : List (String × Nat)} {v : String}
    {c : Nat} (hmem : (v, c) ∈ counter)
    (hmax : ∀ p ∈ counter, p.2 ≤ c)
    (huniq : ∀ p ∈ counter, p.2 = c → p.1 = v)
    (hnd : (counter.map Prod.fst).Nodup) :
    tiedVals counter = [v] := by
  have htop : mcTop counter = c := le_antisymm (mcTop_le hmax) (le_mcTop hmem)
  unfold tiedVals
  rw [htop, filter_count_singleton counter hmem huniq hnd]
  rfl

/-- **C8.** Mode-with-recency-fallback: the unique top-frequency value when
one exists; on a frequency tie, the tied value occurring latest in the
timeline; with an empty frequency multiset, the most recent non-blank
timeline entry; and `None` when no non-blank entry exists either. -/
theorem C8_mode_recent_fallback :
    (∀ (counter : List (String × Nat)) (timeline : List (Int × String))
        (v : String) (c : Nat),
      counter ≠ [] → (v, c) ∈ counter →
      (∀ p ∈ counter, p.2 ≤ c) → (∀ p ∈ counter, p.2 = c → p.1 = v) →
      (counter.map Prod.fst).Nodup →
      choose_mode_with_recent_fallback counter timeline = some v) ∧
    (∀ (counter : List (String × Nat)) (t₁ t₂ : List (Int × String))
        (d : Int) (w : String),
      counter ≠ [] → 2 ≤ (tiedVals counter).length →
      w ∈ tiedVals counter →
      (∀ p ∈ t₂, p.2 ∉ tiedVals counter) →
      choose_mode_with_recent_fallback counter (t₁ ++ (d, w) :: t₂) = some w) ∧
    (∀ (t₁ t₂ : List (Int × String)) (d : Int) (v : String),
      is_blank (some v) = false →
      (∀ p ∈ t₂, is_blank (some p.2) = true) →
      choose_mode_with_recent_fallback [] (t₁ ++ (d, v) :: t₂) = some v) ∧
    (∀ timeline : List (Int × String),
      (∀ p ∈ timeline, is_blank (some p.2) = true) →
      choose_mode_with_recent_fallback [] timeline = none) := by
  have hrecent : ∀ (t₁ t₂ : List (Int × String)) (d : Int) (v : String),
      is_blank (some v) = false →
      (∀ p ∈ t₂, is_blank (some p.2) = true) →
      recentNonBlank (t₁ ++ (d, v) :: t₂) = some v := by
    intro t₁ t₂ d v hv ht₂
    unfold recentNonBlank
    rw [List.reverse_append, List.reverse_cons]
    have h₂ : (t₂.reverse.find? (fun p => !is_blank (some p.2))) = none := by
      rw [List.find?_eq_none]
      intro p hp
      simp [ht₂ p (List.mem_reverse.mp hp)]
    rw [List.append_assoc, List.find?_append, h₂, Option.none_or,
      List.cons_append, List.find?_cons_of_pos _ (by simp [hv])]
    rfl
  have hnone : ∀ timeline : List (Int × String),
      (∀ p ∈ timeline, is_blank (some p.2) = true) →
      recentNonBlank timeline = none := by
    intro timeline hall
    unfold recentNonBlank
    rw [show (timeline.reverse.find? (fun p => !is_blank (some p.2))) = none by
      rw [List.find?_eq_none]
      intro p hp
      simp [hall p (List.mem_reverse.mp hp)]]
    rfl
  refine ⟨?_, ?_, ?_, ?_⟩
  · intro counter timeline v c hne hmem hmax huniq hnd
    have htied := tiedVals_eq_singleton hmem hmax huniq hnd
    cases counter with
    | nil => exact absurd rfl hne
    | cons q qs => simp [choose_mode_with_recent_fallback, htied]
  · intro counter t₁ t₂ d w hne hlen hw ht₂
    cases counter with
    | nil => exact absurd rfl hne
    | cons q qs =>
      rcases htv : tiedVals (q :: qs) with _ | ⟨c1, _ | ⟨c2, cs⟩⟩
      · rw [htv] at hlen
        simp at hlen
      · rw [htv] at hlen
        simp at hlen
      · rw [htv] at hw ht₂
        simp only [choose_mode_with_recent_fallback, htv]
        have h₂ : (t₂.reverse.find?
            (fun p => decide (p.2 ∈ c1 :: c2 :: cs))) = none := by
          rw [List.find?_eq_none]
          intro p hp
          simp [ht₂ p (List.mem_reverse.mp hp)]
        rw [List.reverse_append, List.reverse_cons, List.append_assoc,
          List.find?_append, h₂, Option.none_or, List.cons_append,
          List.find?_cons_of_pos _ (by simp [hw])]
        rfl
  · intro t₁ t₂ d v hv ht₂
    simp only [choose_mode_with_recent_fallback]
    exact hrecent t₁ t₂ d v hv ht₂
  · intro timeline hall
    simp only [choose_mode_with_recent_fallback]
    exact hnone timeline hall

/-- **C8 witness.** Concrete instances of all four branches: unique mode,
tie broken by recency, empty-counter fallback, and no value available. -/
theorem C8_mode_recent_fallback_witness :
    choose_mode_with_recent_fallback [("a", 2), ("b", 1)] [] = some "a" ∧
    choose_mode_with_recent_fallback [("a", 1), ("b", 1)]
      [(1, "a"), (2, "b")] = some "b" ∧
    choose_mode_with_recent_fallback [] [(1, "x"), (2, "n/a")] = some "x" ∧
    choose_mode_with_recent_fallback [] [(1, " ")] = none :=
  ⟨C8_mode_recent_fallback.1 [("a", 2), ("b", 1)] [] "a" 2 (by decide)
      (by decide) (by decide) (by decide) (by decide),
   C8_mode_recent_fallback.2.1 [("a", 1), ("b", 1)] [(1, "a")] [] 2 "b"
      (by decide) (by decide) (by decide) (by decide),
   C8_mode_recent_fallback.2.2.1 [] [(2, "n/a")] 1 "x" (by decide) (by decide),
   C8_mode_recent_fallback.2.2.2 [(1, " ")] (by decide)⟩

end UFC
